import Mathlib

/-!
Shallow embedding of the clarr reconciliation and cleanup engine
(repository cleeryy/clarr). The embedding covers the orphan scanner
(FindOrphans in internal/cleaner), the cleanup executor (Cleanup),
empty-directory pruning (removeEmptyDirs), human byte formatting
(FreedBytesHuman), webhook event ingestion (handleJellyfin and
verifySignature in internal/webhook), the movie reconciliation flow
(handleMovieDeleted) and the cleanup trigger paths of cmd/clarr/main.go.
External effects (filesystem walk results, stat results, qBittorrent and
Radarr call outcomes, JSON decoding) are passed in as explicit data or
as outcome functions, and the executor records every call it makes in an
action trace.
-/

namespace Clarr

/-- A regular file met by the directory walk: its path, its size in bytes
(info.Size) and its on-disk hardlink count (syscall.Stat_t Nlink). -/
structure FileEnt where
  path : String
  size : Int
  nlink : Nat
deriving Repr, DecidableEq

/-- One event seen by the filepath.WalkDir callback in FindOrphans: a
directory entry (the callback returns nil for directories), a regular
file entry for which os.Stat succeeds, or a failing entry (a walk error
or a stat error), which makes the callback return an error and aborts
the walk. -/
inductive WalkEntry where
  | dirEnt (path : String)
  | fileEnt (f : FileEnt)
  | failEnt (path : String) (msg : String)
deriving Repr, DecidableEq

/-- The OrphanFile record of internal/cleaner: path, size in bytes and
the hardlink count at classification time. -/
structure OrphanFile where
  Path : String
  Size : Int
  Links : Nat
deriving Repr, DecidableEq

/-- The OrphanFile value that FindOrphans builds from a walked file. -/
def toOrphan (f : FileEnt) : OrphanFile :=
  { Path := f.path, Size := f.size, Links := f.nlink }

/-- FindOrphans walks the download directory and collects the regular
files whose hardlink count equals one; directories are skipped. In Go
the function returns the pair (orphans, err); every caller (Cleanup and
the stats endpoint) discards the orphan list when err is non-nil, so the
pair is modelled as an Except value: any failing entry aborts the walk
and yields the error. -/
def FindOrphans : List WalkEntry → Except String (List OrphanFile)
  | [] => Except.ok []
  | WalkEntry.dirEnt _ :: rest => FindOrphans rest
  | WalkEntry.fileEnt f :: rest =>
    match FindOrphans rest with
    | Except.error e => Except.error e
    | Except.ok os => Except.ok (if f.nlink = 1 then toOrphan f :: os else os)
  | WalkEntry.failEnt _ msg :: _ => Except.error msg

/-- The CleanupResult record of internal/cleaner. -/
structure CleanupResult where
  ScannedFiles : Nat
  OrphanFiles : List OrphanFile
  FreedBytes : Int
  Errors : List String
deriving Repr, DecidableEq

/-- An external call issued by the cleanup executor: a
qBittorrent DeleteTorrentByPath call, an os.Remove of a file, or an
os.Remove of a directory during empty-directory pruning. -/
inductive Action where
  | qbitDelete (path : String)
  | fileRemove (path : String)
  | dirRemove (path : List String)
deriving Repr, DecidableEq

/-- The mutable loop state of the per-orphan loop in Cleanup, extended
with the trace of external calls issued so far. -/
structure LoopState where
  actions : List Action
  scanned : Nat
  freed : Int
  errs : List String
deriving Repr, DecidableEq

/-- One iteration of the per-orphan loop of Cleanup. The counter is
incremented first. In dry-run mode the iteration only logs and adds the
size to FreedBytes. In live mode, when a qBittorrent client is
configured the executor first calls DeleteTorrentByPath; its outcome is
only logged (Warn on error, Info on success) and never alters control
flow. Then os.Remove is called on the file: on failure the error is
appended to the result errors and the loop continues; on success the
size is added to FreedBytes. -/
def cleanStep (dryRun qbitPresent : Bool) (qbitRes removeRes : String → Except String Unit)
    (st : LoopState) (f : OrphanFile) : LoopState :=
  if dryRun then
    { st with scanned := st.scanned + 1, freed := st.freed + f.Size }
  else
    let acts1 := if qbitPresent then st.actions ++ [Action.qbitDelete f.Path] else st.actions
    match removeRes f.Path with
    | Except.error e =>
      { actions := acts1 ++ [Action.fileRemove f.Path], scanned := st.scanned + 1,
        freed := st.freed, errs := st.errs ++ [e] }
    | Except.ok _ =>
      { actions := acts1 ++ [Action.fileRemove f.Path], scanned := st.scanned + 1,
        freed := st.freed + f.Size, errs := st.errs }

/-- A node of the directory tree under the download directory, as it
stands when removeEmptyDirs starts (after the file deletions). -/
inductive Node where
  | file (name : String)
  | dir (name : String) (children : List Node)
deriving Repr

/-- The name component of a tree node. -/
def Node.name : Node → String
  | Node.file n => n
  | Node.dir n _ => n

/-- State threaded through the removeEmptyDirs walk: the directories
removed so far and every directory on which os.Remove was attempted. -/
structure DirWalkSt where
  removed : List (List String)
  attempts : List (List String)
deriving Repr, DecidableEq

mutual

/-- Model of one visit of the filepath.WalkDir traversal used by
removeEmptyDirs. The callback is: on a walk error or a non-directory or
the root itself it returns the incoming error; otherwise it reads the
directory and, when the directory is empty, removes it and returns the
outcome of os.Remove. After a callback that returns nil on a directory,
WalkDir itself calls os.ReadDir on that directory and, on a read error,
calls the callback again with that error, which the callback returns,
aborting the whole walk. Reading a directory that was just removed fails
this way; the model reports it as the error string readdir-removed-dir,
standing for the ENOENT that os.ReadDir returns there. -/
def walkNode (rmDir : List String → Except String Unit) (root : List String) :
    List String → Node → DirWalkSt → DirWalkSt × Except String Unit
  | _, Node.file _, st => (st, Except.ok ())
  | path, Node.dir _ children, st =>
    let fnRes : DirWalkSt × Except String Unit :=
      if path = root then (st, Except.ok ())
      else if st.removed.contains path then (st, Except.error "readdir-removed-dir")
      else if (children.filter (fun c => !(st.removed.contains (path ++ [c.name])))).isEmpty then
        match rmDir path with
        | Except.ok _ =>
          ({ removed := path :: st.removed, attempts := st.attempts ++ [path] }, Except.ok ())
        | Except.error e => ({ st with attempts := st.attempts ++ [path] }, Except.error e)
      else (st, Except.ok ())
    match fnRes with
    | (st1, Except.error e) => (st1, Except.error e)
    | (st1, Except.ok _) =>
      if st1.removed.contains path then (st1, Except.error "readdir-removed-dir")
      else walkNodes rmDir root path children st1

/-- The loop of WalkDir over the entries of one directory, in order. A
child directory already removed is no longer listed by os.ReadDir and is
skipped; an error from a child aborts the loop. -/
def walkNodes (rmDir : List String → Except String Unit) (root : List String) :
    List String → List Node → DirWalkSt → DirWalkSt × Except String Unit
  | _, [], st => (st, Except.ok ())
  | path, c :: cs, st =>
    if st.removed.contains (path ++ [c.name]) then walkNodes rmDir root path cs st
    else
      match walkNode rmDir root (path ++ [c.name]) c st with
      | (st1, Except.error e) => (st1, Except.error e)
      | (st1, Except.ok _) => walkNodes rmDir root path cs st1

end

/-- removeEmptyDirs walks the download directory. The first callback
call, on the root itself, returns nil because path equals the download
directory; the walk then reads the root entries and descends. -/
def removeEmptyDirs (rmDir : List String → Except String Unit) (root : List String)
    (children : List Node) : DirWalkSt × Except String Unit :=
  walkNodes rmDir root root children { removed := [], attempts := [] }

/-- Cleanup: runs FindOrphans; on a scan error it returns the wrapped
error and nothing else happens. Otherwise it stores the orphan list in
the result, runs the per-orphan loop, and, in live mode only, calls
removeEmptyDirs, whose failure is only logged as a warning and never
fails the run. The first component collects every external call made
during the run. -/
def Cleanup (dryRun qbitPresent : Bool) (qbitRes removeRes : String → Except String Unit)
    (rmDir : List String → Except String Unit) (walk : List WalkEntry)
    (root : List String) (rootChildren : List Node) :
    List Action × Except String CleanupResult :=
  match FindOrphans walk with
  | Except.error e => ([], Except.error ("cleaner: find orphans: " ++ e))
  | Except.ok orphans =>
    let st := orphans.foldl (cleanStep dryRun qbitPresent qbitRes removeRes)
      { actions := [], scanned := 0, freed := 0, errs := [] }
    let dirSt : DirWalkSt :=
      if dryRun then { removed := [], attempts := [] }
      else (removeEmptyDirs rmDir root rootChildren).1
    (st.actions ++ dirSt.attempts.map Action.dirRemove,
     Except.ok { ScannedFiles := st.scanned, OrphanFiles := orphans,
                 FreedBytes := st.freed, Errors := st.errs })

/-- The unit-selection loop of FreedBytesHuman: starting from
n = b / 1024, d = 1024, e = 0, it divides by 1024 while n is at least
1024, multiplying the divisor and counting the exponent. -/
def humanLoop (n d e : Nat) : Nat × Nat :=
  if h : 1024 ≤ n then humanLoop (n / 1024) (d * 1024) (e + 1) else (d, e)
termination_by n
decreasing_by exact Nat.div_lt_self (by omega) (by omega)

/-- The divisor and exponent FreedBytesHuman selects for a value of at
least 1024 bytes. -/
def humanDivExp (bn : Nat) : Nat × Nat := humanLoop (bn / 1024) 1024 0

/-- Rounding of the rational n / d to the nearest integer, ties to even:
the rounding used when printing one decimal place. -/
def roundHalfEven (n d : Nat) : Nat :=
  let q := n / d
  let r := n % d
  if 2 * r < d then q
  else if d < 2 * r then q + 1
  else if q % 2 = 0 then q else q + 1

/-- FreedBytesHuman: below 1024 bytes the count is printed as an integer
with the unit B; otherwise the loop picks the divisor and the exponent
into the unit table KMGTPE, and the scaled value is printed with one
decimal place. The one-decimal rendering of the Go verb is modelled in
exact arithmetic, rounding half to even. -/
def FreedBytesHuman (b : Int) : String :=
  if b < 1024 then toString b ++ " B"
  else
    let bn := b.toNat
    let de := humanDivExp bn
    let q10 := roundHalfEven (10 * bn) de.1
    toString (q10 / 10) ++ "." ++ toString (q10 % 10) ++ " " ++
      String.singleton ("KMGTPE".toList.getD de.2 'K') ++ "B"

/-- The JellyfinEvent record of internal/webhook. -/
structure JellyfinEvent where
  Event : String
  Title : String
  ItemId : String
  ItemType : String
  SeriesName : String
  SeasonNumber : Int
deriving Repr, DecidableEq

/-- The four responses the jellyfin webhook route can produce. -/
inductive WebhookResponse where
  | unauthorized
  | badPayload
  | ignored
  | processing
deriving Repr, DecidableEq

/-- ASCII lower-casing of a string, over character codes. The source
compares with strings.EqualFold; for the fixed ASCII event names of
isDeleteEvent, equality after ASCII lower-casing is the same relation. -/
def lowerCodes (s : String) : List Nat :=
  s.toList.map (fun c =>
    let n := c.toNat
    if 65 ≤ n ∧ n ≤ 90 then n + 32 else n)

/-- isDeleteEvent: case-insensitive membership in the fixed list of
deletion event names. -/
def isDeleteEvent (event : String) : Bool :=
  ["library.deleted", "item.deleted", "playback.stop"].any
    (fun e => lowerCodes e == lowerCodes event)

/-- verifySignature: requires the X-Jellyfin-Signature header, computes
the hex HMAC-SHA256 of the raw body with the secret (the keyed MAC is a
parameter of the model) and compares. On success the Go code reads the
whole body with GetRawData, sets the request body to http.NoBody and
stashes the raw bytes in the Gin context under the key rawBody; the
value returned on success here is the request body as the subsequent
handler code sees it, namely the empty body. -/
def verifySignature (secret : String) (hmacHex : String → String → String)
    (sigHeader body : String) : Except String String :=
  if sigHeader = "" then Except.error "missing X-Jellyfin-Signature header"
  else if sigHeader = hmacHex secret body then Except.ok ""
  else Except.error "signature mismatch"

/-- handleJellyfin: when a secret is configured the signature is checked
first, answering 401 on failure; the event is then decoded from the
current request body (the decoder is a parameter of the model),
answering 400 on a decode error; non-deletion events answer 200 ignored;
deletion events are dispatched asynchronously and answer 200
processing. -/
def handleJellyfin (secret : String) (hmacHex : String → String → String)
    (jsonDecode : String → Option JellyfinEvent) (sigHeader body : String) :
    WebhookResponse :=
  let verified : Except String String :=
    if secret = "" then Except.ok body
    else verifySignature secret hmacHex sigHeader body
  match verified with
  | Except.error _ => WebhookResponse.unauthorized
  | Except.ok reqBody =>
    match jsonDecode reqBody with
    | none => WebhookResponse.badPayload
    | some ev =>
      if isDeleteEvent ev.Event then WebhookResponse.processing
      else WebhookResponse.ignored

/-- The Movie record of internal/radarr, restricted to the fields the
coordinator uses. -/
structure Movie where
  ID : Int
  Title : String
  HasFile : Bool
deriving Repr, DecidableEq

/-- A call issued to the Radarr client by handleMovieDeleted. -/
inductive RadarrCall where
  | rescanAll
  | getMissingMovies
  | unmonitorMovie (id : Int)
deriving Repr, DecidableEq

/-- Number of rescan calls in a trace. -/
def countRescans : List RadarrCall → Nat
  | [] => 0
  | RadarrCall.rescanAll :: t => countRescans t + 1
  | _ :: t => countRescans t

/-- handleMovieDeleted: calls RescanAll; on error it logs and returns.
On success it calls GetMissingMovies; on error it logs and returns. For
each missing movie it calls UnmonitorMovie; a per-item failure logs and
continues with the next movie, so one call is issued per missing movie
whatever the outcomes. The outcomes of the three client operations are
parameters; the value is the trace of calls issued. -/
def handleMovieDeleted (rescanRes : Except String Unit)
    (missingRes : Except String (List Movie))
    (unmonRes : Int → Except String Unit) : List RadarrCall :=
  match rescanRes with
  | Except.error _ => [RadarrCall.rescanAll]
  | Except.ok _ =>
    match missingRes with
    | Except.error _ => [RadarrCall.rescanAll, RadarrCall.getMissingMovies]
    | Except.ok missing =>
      [RadarrCall.rescanAll, RadarrCall.getMissingMovies] ++
        missing.map (fun m => RadarrCall.unmonitorMovie m.ID)

/-- The two paths of cmd/clarr/main.go that trigger a cleanup run: the
cron callback registered with AddFunc and the POST /api/cleanup
handler. -/
inductive CleanupTrigger where
  | schedTick
  | manualAPI
deriving Repr, DecidableEq

/-- Outcome reported to the requester of a cleanup trigger. -/
inductive APIStatus where
  | accepted
  | rejected
deriving Repr, DecidableEq

/-- Model of the cleanup trigger paths of cmd/clarr/main.go over the
number of Cleanup runs currently in flight against the configured
download directory. Neither path consults any lock, flag or guard: the
API handler unconditionally spawns Cleanup in a fresh goroutine and
immediately answers 202 Accepted, and the cron library runs each tick of
the callback in its own goroutine, so every trigger starts one more
concurrent run. -/
def dispatchCleanup (inFlight : Nat) (_ : CleanupTrigger) : Nat × APIStatus :=
  (inFlight + 1, APIStatus.accepted)

/-- Fixture: an effect outcome that always succeeds, for concrete runs. -/
def alwaysOk : String → Except String Unit := fun _ => Except.ok ()

/-- Fixture: a directory removal outcome that always succeeds. -/
def alwaysOkDir : List String → Except String Unit := fun _ => Except.ok ()

/-- Fixture: an effect outcome that always fails with the given message. -/
def alwaysErr (msg : String) : String → Except String Unit := fun _ => Except.error msg

/-- Fixture: a stand-in keyed MAC for concrete evaluation of the
ingestion control flow. -/
def sampleHmac : String → String → String := fun secret body => secret ++ ":" ++ body

/-- Fixture: a decoder that accepts exactly the body valid, standing for
a well-formed JSON deletion event, and fails on everything else; in
particular it fails on the empty input, as the stdlib JSON decoder does
on http.NoBody (io.EOF). -/
def sampleDecode : String → Option JellyfinEvent :=
  fun s =>
    if s = "valid" then
      some { Event := "item.deleted", Title := "t", ItemId := "i",
             ItemType := "Movie", SeriesName := "", SeasonNumber := 0 }
    else none

/-! ## Theorems -/

/-- Every orphan FindOrphans reports has hardlink count one. -/
theorem findOrphans_links_one : ∀ (w : List WalkEntry) (os : List OrphanFile),
    FindOrphans w = Except.ok os → ∀ o ∈ os, o.Links = 1 := by
  intro w
  induction w with
  | nil =>
    intro os h o ho
    simp only [FindOrphans, Except.ok.injEq] at h
    subst h
    simp at ho
  | cons a rest ih =>
    intro os h o ho
    cases a with
    | dirEnt p => exact ih os h o ho
    | failEnt p msg => simp [FindOrphans] at h
    | fileEnt f =>
      simp only [FindOrphans] at h
      cases hr : FindOrphans rest with
      | error e => rw [hr] at h; simp at h
      | ok os0 =>
        rw [hr] at h
        simp only [Except.ok.injEq] at h
        subst h
        by_cases hn : f.nlink = 1
        · rw [if_pos hn] at ho
          rcases List.mem_cons.mp ho with hho | hho
          · subst hho; exact hn
          · exact ih os0 hr o hho
        · rw [if_neg hn] at ho
          exact ih os0 hr o ho

/-- Every walked regular file with hardlink count one is reported by a
successful FindOrphans run. -/
theorem findOrphans_mem_of_nlink_one : ∀ (w : List WalkEntry) (os : List OrphanFile)
    (f : FileEnt), FindOrphans w = Except.ok os → WalkEntry.fileEnt f ∈ w →
    f.nlink = 1 → toOrphan f ∈ os := by
  intro w
  induction w with
  | nil => intro os f _ hmem; simp at hmem
  | cons a rest ih =>
    intro os f h hmem hn
    cases a with
    | dirEnt p =>
      rcases List.mem_cons.mp hmem with hh | hh
      · simp at hh
      · exact ih os f h hh hn
    | failEnt p msg => simp [FindOrphans] at h
    | fileEnt g =>
      simp only [FindOrphans] at h
      cases hr : FindOrphans rest with
      | error e => rw [hr] at h; simp at h
      | ok os0 =>
        rw [hr] at h
        simp only [Except.ok.injEq] at h
        subst h
        rcases List.mem_cons.mp hmem with hh | hh
        · have hfg : f = g := by injection hh
          subst hfg
          rw [if_pos hn]
          exact List.mem_cons_self _ _
        · have hm0 : toOrphan f ∈ os0 := ih os0 f hr hh hn
          by_cases hg : g.nlink = 1
          · rw [if_pos hg]; exact List.mem_cons_of_mem _ hm0
          · rw [if_neg hg]; exact hm0

/-- C1: on a successful scan, every reported orphan has reference count
one, and a walked regular file is classified as orphaned exactly when
its reference count equals one; in particular no file with count
greater than one is ever in the orphan list. -/
theorem c1_orphan_classification (w : List WalkEntry) (os : List OrphanFile)
    (h : FindOrphans w = Except.ok os) :
    (∀ o ∈ os, o.Links = 1) ∧
    (∀ f : FileEnt, WalkEntry.fileEnt f ∈ w → (toOrphan f ∈ os ↔ f.nlink = 1)) := by
  refine ⟨findOrphans_links_one w os h, fun f hf => ⟨fun hm => ?_,
    fun hn => findOrphans_mem_of_nlink_one w os f h hf hn⟩⟩
  exact findOrphans_links_one w os h (toOrphan f) hm

/-- Witness for C1 on a concrete walk holding one orphaned file and one
file with two hardlinks. -/
theorem c1_orphan_classification_witness :
    (∀ o ∈ [toOrphan ⟨"a", 5, 1⟩], o.Links = 1) ∧
    (∀ f : FileEnt,
      WalkEntry.fileEnt f ∈ [WalkEntry.fileEnt ⟨"a", 5, 1⟩, WalkEntry.fileEnt ⟨"b", 7, 2⟩] →
      (toOrphan f ∈ [toOrphan ⟨"a", 5, 1⟩] ↔ f.nlink = 1)) :=
  c1_orphan_classification
    [WalkEntry.fileEnt ⟨"a", 5, 1⟩, WalkEntry.fileEnt ⟨"b", 7, 2⟩]
    [toOrphan ⟨"a", 5, 1⟩] rfl

/-- C2: cmd/clarr/main.go has no mutual-exclusion guard around Cleanup:
with one run already in flight, a manual API request and a scheduler
tick each start a second concurrent run and answer accepted, and no
trigger is ever rejected — contradicting the claim that of two
concurrent requests exactly one proceeds and the other is rejected or
deferred. -/
theorem c2_concurrent_cleanup_both_proceed :
    dispatchCleanup 1 CleanupTrigger.manualAPI = (2, APIStatus.accepted) ∧
    dispatchCleanup 1 CleanupTrigger.schedTick = (2, APIStatus.accepted) ∧
    ∀ (n : Nat) (t : CleanupTrigger),
      (dispatchCleanup n t).1 = n + 1 ∧ (dispatchCleanup n t).2 = APIStatus.accepted :=
  ⟨rfl, rfl, fun _ _ => ⟨rfl, rfl⟩⟩

/-- In dry-run mode the loop leaves the action trace and the error list
untouched and only counts files and accumulates would-be freed sizes. -/
theorem foldl_cleanStep_dry (qp : Bool) (qr rr : String → Except String Unit) :
    ∀ (l : List OrphanFile) (st : LoopState),
    l.foldl (cleanStep true qp qr rr) st =
      { actions := st.actions, scanned := st.scanned + l.length,
        freed := st.freed + (l.map OrphanFile.Size).sum, errs := st.errs } := by
  intro l
  induction l with
  | nil => intro st; simp
  | cons f t ih =>
    intro st
    rw [List.foldl_cons, ih]
    have hstep : cleanStep true qp qr rr st f =
        { actions := st.actions, scanned := st.scanned + 1,
          freed := st.freed + f.Size, errs := st.errs } := rfl
    rw [hstep]
    simp only [List.map_cons, List.sum_cons, List.length_cons, LoopState.mk.injEq]
    and_intros <;> first | rfl | omega | ring

/-- The loop counter grows by exactly one per orphan processed, in any
mode and whatever the call outcomes. -/
theorem foldl_cleanStep_scanned (d qp : Bool) (qr rr : String → Except String Unit) :
    ∀ (l : List OrphanFile) (st : LoopState),
    (l.foldl (cleanStep d qp qr rr) st).scanned = st.scanned + l.length := by
  intro l
  induction l with
  | nil => intro st; simp
  | cons f t ih =>
    intro st
    rw [List.foldl_cons, ih]
    have hstep : (cleanStep d qp qr rr st f).scanned = st.scanned + 1 := by
      unfold cleanStep
      cases d with
      | true => simp
      | false => cases h : rr f.Path <;> simp [h]
    rw [hstep]
    simp only [List.length_cons]
    omega

/-- C3: a dry-run Cleanup performs no external call at all — no
qBittorrent call, no file removal, no directory removal — for every
walk result, and when the run returns a result its freed bytes equal
the sum of the orphan sizes. -/
theorem c3_dry_run_no_side_effects (qp : Bool) (qr rr : String → Except String Unit)
    (rmDir : List String → Except String Unit) (walk : List WalkEntry)
    (root : List String) (children : List Node) :
    (Cleanup true qp qr rr rmDir walk root children).1 = [] ∧
    (∀ r, (Cleanup true qp qr rr rmDir walk root children).2 = Except.ok r →
      r.FreedBytes = (r.OrphanFiles.map OrphanFile.Size).sum) := by
  cases h : FindOrphans walk with
  | error e => simp [Cleanup, h]
  | ok orphans =>
    simp only [Cleanup, h]
    rw [foldl_cleanStep_dry]
    constructor
    · simp
    · intro r hr
      simp only [Except.ok.injEq] at hr
      subst hr
      simp

/-- Witness for C3 on a concrete walk with one orphan, a configured
qBittorrent client and failing effect outcomes. -/
theorem c3_dry_run_no_side_effects_witness :
    (Cleanup true true (alwaysErr "q") (alwaysErr "r") (fun _ => Except.error "d")
      [WalkEntry.fileEnt ⟨"a", 5, 1⟩] ["dl"] [Node.dir "a" []]).1 = [] ∧
    ({ ScannedFiles := 1, OrphanFiles := [toOrphan ⟨"a", 5, 1⟩], FreedBytes := 5,
       Errors := [] } : CleanupResult).FreedBytes =
      (([toOrphan ⟨"a", 5, 1⟩].map OrphanFile.Size)).sum :=
  ⟨(c3_dry_run_no_side_effects true (alwaysErr "q") (alwaysErr "r")
      (fun _ => Except.error "d") [WalkEntry.fileEnt ⟨"a", 5, 1⟩] ["dl"]
      [Node.dir "a" []]).1,
   (c3_dry_run_no_side_effects true (alwaysErr "q") (alwaysErr "r")
      (fun _ => Except.error "d") [WalkEntry.fileEnt ⟨"a", 5, 1⟩] ["dl"]
      [Node.dir "a" []]).2 _ rfl⟩

/-- C5: when the orphan scan fails, Cleanup returns the wrapped scan
error and no result, and its action trace is empty: no file removal, no
qBittorrent call, no directory removal. -/
theorem c5_scan_failure_aborts_run (dryRun qp : Bool)
    (qr rr : String → Except String Unit) (rmDir : List String → Except String Unit)
    (walk : List WalkEntry) (root : List String) (children : List Node) (e : String)
    (h : FindOrphans walk = Except.error e) :
    Cleanup dryRun qp qr rr rmDir walk root children =
      ([], Except.error ("cleaner: find orphans: " ++ e)) := by
  unfold Cleanup
  rw [h]

/-- Witness for C5 on a concrete walk whose second entry is unreadable. -/
theorem c5_scan_failure_aborts_run_witness :
    Cleanup false true alwaysOk alwaysOk alwaysOkDir
      [WalkEntry.fileEnt ⟨"a", 5, 1⟩, WalkEntry.failEnt "p" "boom"] ["dl"] [] =
      ([], Except.error ("cleaner: find orphans: " ++ "boom")) :=
  c5_scan_failure_aborts_run false true alwaysOk alwaysOk alwaysOkDir
    [WalkEntry.fileEnt ⟨"a", 5, 1⟩, WalkEntry.failEnt "p" "boom"] ["dl"] [] "boom" rfl

/-- C6: in a live run, per-item failures never abort the batch: the loop
step always issues the file removal call, whatever the qBittorrent
outcome was; a failed removal appends its error to the result error
list (and the fold then simply continues with the next orphan); and
whenever the scan succeeded the run returns a result. -/
theorem c6_item_failures_do_not_abort (qp : Bool) (qr rr : String → Except String Unit)
    (st : LoopState) (f : OrphanFile) :
    (cleanStep false qp qr rr st f).actions =
      (if qp then st.actions ++ [Action.qbitDelete f.Path] else st.actions) ++
        [Action.fileRemove f.Path] ∧
    (∀ e, rr f.Path = Except.error e →
      (cleanStep false qp qr rr st f).errs = st.errs ++ [e]) ∧
    (∀ (rmDir : List String → Except String Unit) (walk : List WalkEntry)
        (root : List String) (children : List Node) (os : List OrphanFile),
      FindOrphans walk = Except.ok os →
      ∃ r, (Cleanup false qp qr rr rmDir walk root children).2 = Except.ok r) := by
  refine ⟨?_, ?_, ?_⟩
  · unfold cleanStep
    cases h : rr f.Path <;> simp [h]
  · intro e he
    unfold cleanStep
    simp [he]
  · intro rmDir walk root children os h
    unfold Cleanup
    rw [h]
    exact ⟨_, rfl⟩

/-- Witness for C6: a failing qBittorrent client does not block the
removal call, a failing removal is recorded, and the concrete live run
still returns a result. -/
theorem c6_item_failures_do_not_abort_witness :
    (cleanStep false true (alwaysErr "qbit down") (alwaysErr "eperm")
        { actions := [], scanned := 0, freed := 0, errs := [] } ⟨"x", 4, 1⟩).actions =
      (if true then ([] : List Action) ++ [Action.qbitDelete "x"] else []) ++
        [Action.fileRemove "x"] ∧
    (cleanStep false true (alwaysErr "qbit down") (alwaysErr "eperm")
        { actions := [], scanned := 0, freed := 0, errs := [] } ⟨"x", 4, 1⟩).errs =
      [] ++ ["eperm"] ∧
    ∃ r, (Cleanup false true (alwaysErr "qbit down") (alwaysErr "eperm") alwaysOkDir
        [WalkEntry.fileEnt ⟨"x", 4, 1⟩] [] []).2 = Except.ok r :=
  ⟨(c6_item_failures_do_not_abort true (alwaysErr "qbit down") (alwaysErr "eperm")
      { actions := [], scanned := 0, freed := 0, errs := [] } ⟨"x", 4, 1⟩).1,
   (c6_item_failures_do_not_abort true (alwaysErr "qbit down") (alwaysErr "eperm")
      { actions := [], scanned := 0, freed := 0, errs := [] } ⟨"x", 4, 1⟩).2.1 "eperm" rfl,
   (c6_item_failures_do_not_abort true (alwaysErr "qbit down") (alwaysErr "eperm")
      { actions := [], scanned := 0, freed := 0, errs := [] } ⟨"x", 4, 1⟩).2.2
      alwaysOkDir [WalkEntry.fileEnt ⟨"x", 4, 1⟩] [] [] [toOrphan ⟨"x", 4, 1⟩] rfl⟩

/-- C10: whenever a Cleanup run returns a result, its ScannedFiles
field equals the length of its OrphanFiles list; on a concrete walk of
three files of which one is an orphan, the returned counter is one, not
three, so it does not count the files examined by the walk. -/
theorem c10_scanned_counts_orphans (d qp : Bool) (qr rr : String → Except String Unit)
    (rmDir : List String → Except String Unit) (walk : List WalkEntry)
    (root : List String) (children : List Node) :
    (∀ r, (Cleanup d qp qr rr rmDir walk root children).2 = Except.ok r →
      r.ScannedFiles = r.OrphanFiles.length) ∧
    (Cleanup true false alwaysOk alwaysOk alwaysOkDir
        [WalkEntry.fileEnt ⟨"a", 5, 2⟩, WalkEntry.fileEnt ⟨"b", 7, 1⟩,
         WalkEntry.fileEnt ⟨"c", 3, 3⟩] [] []).2 =
      Except.ok { ScannedFiles := 1, OrphanFiles := [toOrphan ⟨"b", 7, 1⟩],
                  FreedBytes := 7, Errors := [] } := by
  constructor
  · intro r hr
    cases h : FindOrphans walk with
    | error e => simp [Cleanup, h] at hr
    | ok orphans =>
      simp only [Cleanup, h, Except.ok.injEq] at hr
      subst hr
      simp [foldl_cleanStep_scanned]
  · rfl

/-- Witness for C10 at the concrete dry run over three walked files with
a single orphan. -/
theorem c10_scanned_counts_orphans_witness :
    ({ ScannedFiles := 1, OrphanFiles := [toOrphan ⟨"b", 7, 1⟩], FreedBytes := 7,
       Errors := [] } : CleanupResult).ScannedFiles =
      ({ ScannedFiles := 1, OrphanFiles := [toOrphan ⟨"b", 7, 1⟩], FreedBytes := 7,
         Errors := [] } : CleanupResult).OrphanFiles.length :=
  (c10_scanned_counts_orphans true false alwaysOk alwaysOk alwaysOkDir
    [WalkEntry.fileEnt ⟨"a", 5, 2⟩, WalkEntry.fileEnt ⟨"b", 7, 1⟩,
     WalkEntry.fileEnt ⟨"c", 3, 3⟩] [] []).1 _ rfl

/-- A trace of unmonitor calls contains no rescan call. -/
theorem countRescans_map_unmonitor : ∀ ms : List Movie,
    countRescans (ms.map (fun m => RadarrCall.unmonitorMovie m.ID)) = 0 := by
  intro ms
  induction ms with
  | nil => rfl
  | cons m t ih => simpa [countRescans] using ih

/-- C7: the movie deletion flow issues exactly one rescan call; when the
rescan fails nothing else is called; when it succeeds and the missing
query answers, the trace is the rescan, the query and exactly one
unmonitor call per missing movie — whatever the per-item unmonitor
outcomes are, so a per-item failure never aborts the remaining items. -/
theorem c7_movie_rescan_unmonitor_flow (rescanRes : Except String Unit)
    (missingRes : Except String (List Movie)) (unmonRes : Int → Except String Unit) :
    countRescans (handleMovieDeleted rescanRes missingRes unmonRes) = 1 ∧
    (∀ e, rescanRes = Except.error e →
      handleMovieDeleted rescanRes missingRes unmonRes = [RadarrCall.rescanAll]) ∧
    (∀ ms, rescanRes = Except.ok () → missingRes = Except.ok ms →
      handleMovieDeleted rescanRes missingRes unmonRes =
        [RadarrCall.rescanAll, RadarrCall.getMissingMovies] ++
          ms.map (fun m => RadarrCall.unmonitorMovie m.ID)) := by
  refine ⟨?_, ?_, ?_⟩
  · cases rescanRes with
    | error e => rfl
    | ok u =>
      cases missingRes with
      | error e => rfl
      | ok ms => simp [handleMovieDeleted, countRescans, countRescans_map_unmonitor]
  · intro e he
    subst he
    rfl
  · intro ms hre hm
    subst hre
    subst hm
    rfl

/-- Witness for C7: a failed rescan yields only the rescan call, and a
successful rescan with one missing movie yields one unmonitor attempt,
even though the unmonitor outcome is a failure. -/
theorem c7_movie_rescan_unmonitor_flow_witness :
    countRescans (handleMovieDeleted (Except.ok ())
      (Except.ok [{ ID := 1, Title := "m1", HasFile := false }])
      (fun _ => Except.error "u")) = 1 ∧
    handleMovieDeleted (Except.error "down")
      (Except.ok [{ ID := 1, Title := "m1", HasFile := false }])
      (fun _ => Except.error "u") = [RadarrCall.rescanAll] ∧
    handleMovieDeleted (Except.ok ())
      (Except.ok [{ ID := 1, Title := "m1", HasFile := false }])
      (fun _ => Except.error "u") =
      [RadarrCall.rescanAll, RadarrCall.getMissingMovies] ++
        [({ ID := 1, Title := "m1", HasFile := false } : Movie)].map
          (fun m => RadarrCall.unmonitorMovie m.ID) :=
  ⟨(c7_movie_rescan_unmonitor_flow (Except.ok ())
      (Except.ok [{ ID := 1, Title := "m1", HasFile := false }])
      (fun _ => Except.error "u")).1,
   (c7_movie_rescan_unmonitor_flow (Except.error "down")
      (Except.ok [{ ID := 1, Title := "m1", HasFile := false }])
      (fun _ => Except.error "u")).2.1 "down" rfl,
   (c7_movie_rescan_unmonitor_flow (Except.ok ())
      (Except.ok [{ ID := 1, Title := "m1", HasFile := false }])
      (fun _ => Except.error "u")).2.2 _ rfl rfl⟩

/-- The unit-selection loop of FreedBytesHuman picks the largest power
of 1024 whose quotient is nonzero: the selected divisor is a power of
1024 bounded by the value, and the scaled value is below 1024. -/
theorem humanLoop_correct : ∀ (n b d e : Nat), 0 < d → n = b / d → d ≤ b →
    d = 1024 ^ (e + 1) →
    (humanLoop n d e).1 ≤ b ∧ b < 1024 * (humanLoop n d e).1 ∧
    (humanLoop n d e).1 = 1024 ^ ((humanLoop n d e).2 + 1) := by
  intro n
  induction n using Nat.strong_induction_on with
  | _ n ih =>
    intro b d e hd hn hdb hde
    rw [humanLoop]
    by_cases h : 1024 ≤ n
    · rw [dif_pos h]
      refine ih (n / 1024) (Nat.div_lt_self (by omega) (by omega)) b (d * 1024) (e + 1)
        (by omega) ?_ ?_ ?_
      · rw [hn, Nat.div_div_eq_div_mul]
      · have h1 : 1024 ≤ b / d := hn ▸ h
        have h2 : 1024 * d ≤ b := (Nat.le_div_iff_mul_le hd).mp h1
        omega
      · rw [hde]
        ring
    · rw [dif_neg h]
      refine ⟨hdb, ?_, hde⟩
      have h1 : b / d < 1024 := by rw [← hn]; omega
      exact (Nat.div_lt_iff_lt_mul hd).mp h1

/-- C9: FreedBytesHuman maps the four specified inputs to the specified
strings, and for every value of at least 1024 bytes the selected
divisor is the largest power of 1024 not exceeding the value, so the
scaled value is below 1024 (base 1024 scaling with one decimal place
over the unit table). -/
theorem c9_byte_formatting :
    FreedBytesHuman 500 = "500 B" ∧
    FreedBytesHuman 1024 = "1.0 KB" ∧
    FreedBytesHuman 1536 = "1.5 KB" ∧
    FreedBytesHuman 1073741824 = "1.0 GB" ∧
    (∀ bn : Nat, 1024 ≤ bn →
      (humanDivExp bn).1 ≤ bn ∧ bn < 1024 * (humanDivExp bn).1 ∧
      (humanDivExp bn).1 = 1024 ^ ((humanDivExp bn).2 + 1)) := by
  refine ⟨rfl, ?_, ?_, ?_, ?_⟩
  · have h : humanDivExp (Int.toNat 1024) = (1024, 0) := by
      show humanDivExp 1024 = (1024, 0)
      unfold humanDivExp
      norm_num
      rw [humanLoop]
      norm_num
    simp only [FreedBytesHuman]
    norm_num
    rw [h]
    rfl
  · have h : humanDivExp (Int.toNat 1536) = (1024, 0) := by
      show humanDivExp 1536 = (1024, 0)
      unfold humanDivExp
      norm_num
      rw [humanLoop]
      norm_num
    simp only [FreedBytesHuman]
    norm_num
    rw [h]
    rfl
  · have h : humanDivExp (Int.toNat 1073741824) = (1073741824, 2) := by
      show humanDivExp 1073741824 = (1073741824, 2)
      unfold humanDivExp
      norm_num
      rw [humanLoop]
      norm_num
      rw [humanLoop]
      norm_num
      rw [humanLoop]
      norm_num
    simp only [FreedBytesHuman]
    norm_num
    rw [h]
    rfl
  · intro bn hbn
    refine humanLoop_correct (bn / 1024) bn 1024 0 (by omega) rfl hbn (by norm_num)

/-- Witness for C9: the unit-selection bounds evaluated at 2048 bytes. -/
theorem c9_byte_formatting_witness :
    1024 ≤ 2048 ∧
    ((humanDivExp 2048).1 ≤ 2048 ∧ 2048 < 1024 * (humanDivExp 2048).1 ∧
      (humanDivExp 2048).1 = 1024 ^ ((humanDivExp 2048).2 + 1)) :=
  ⟨by norm_num, c9_byte_formatting.2.2.2.2 2048 (by norm_num)⟩

/-- C4: a request with a configured secret, a signature that verifies
against the raw body and a well-formed body is nevertheless rejected
with BadPayload: verifySignature consumed the body and replaced it with
http.NoBody, so the decoder runs on empty input and fails. The same
body decodes and is dispatched when no secret is configured, showing
the body itself is well formed. -/
theorem c4_verified_request_rejected :
    sampleDecode "valid" =
      some { Event := "item.deleted", Title := "t", ItemId := "i",
             ItemType := "Movie", SeriesName := "", SeasonNumber := 0 } ∧
    sampleDecode "" = none ∧
    handleJellyfin "topsecret" sampleHmac sampleDecode
      (sampleHmac "topsecret" "valid") "valid" = WebhookResponse.badPayload ∧
    handleJellyfin "" sampleHmac sampleDecode "" "valid" = WebhookResponse.processing := by
  refine ⟨rfl, rfl, ?_, ?_⟩ <;> rfl

/-- C8: empty-directory pruning does not remove every directory that
became empty: on a root with two empty subdirectories the walk removes
the first, then the ReadDir of the removed directory fails, aborting
the walk before the second; the root is untouched and the failure is
only a warning — the live Cleanup run still returns its result. -/
theorem c8_empty_dir_pruning_aborts :
    (removeEmptyDirs alwaysOkDir ["dl"] [Node.dir "a" [], Node.dir "b" []]).1.removed =
      [["dl", "a"]] ∧
    (removeEmptyDirs alwaysOkDir ["dl"] [Node.dir "a" [], Node.dir "b" []]).2 =
      Except.error "readdir-removed-dir" ∧
    ((removeEmptyDirs alwaysOkDir ["dl"] [Node.dir "a" [], Node.dir "b" []]).1.removed.contains
      ["dl", "b"]) = false ∧
    ((removeEmptyDirs alwaysOkDir ["dl"] [Node.dir "a" [], Node.dir "b" []]).1.removed.contains
      ["dl"]) = false ∧
    (Cleanup false false alwaysOk alwaysOk alwaysOkDir [] ["dl"]
        [Node.dir "a" [], Node.dir "b" []]).2 =
      Except.ok { ScannedFiles := 0, OrphanFiles := [], FreedBytes := 0, Errors := [] } := by
  refine ⟨rfl, rfl, ?_, ?_, rfl⟩ <;> rfl

end Clarr
